import Mathlib

/-!
Verification of the response model and deserialization engine of the
prometheus-http-query repository (src/response.rs and src/client.rs),
as a shallow embedding in Lean.

JSON numbers are modelled as exact rationals; the floating-point string
coercion is modelled by the documented decimal/scientific grammar of the
standard from_str routine, with finite values kept as exact rationals and
the special not-a-number and infinity tokens kept symbolic.
-/

deriving instance DecidableEq for Except

namespace PromHttp

/-- A JSON document, as handed to the decoders by the JSON library.
Object fields are kept in document order; numbers are exact rationals. -/
inductive Json where
  | null
  | bool (b : Bool)
  | num (q : ℚ)
  | str (s : String)
  | arr (elems : List Json)
  | obj (fields : List (String × Json))

/-- Decimal value of a run of digit characters. -/
def decimalVal (ds : List Char) : Nat :=
  ds.foldl (fun a c => 10 * a + (c.toNat - 48)) 0

/-- Largest value of a signed 64-bit integer. -/
def i64Max : Nat := 9223372036854775807

/-- Embeds raw_num.parse::<i64>() as it is called in
deserialize_prometheus_duration (src/response.rs): the pending run holds only
digit characters, so the parse succeeds exactly for a non-empty digit run
whose value fits in a signed 64-bit integer. -/
def parseI64 (ds : List Char) : Option Int :=
  if ds ≠ [] ∧ ds.all Char.isDigit ∧ decimalVal ds ≤ i64Max then
    some ((decimalVal ds : Int))
  else
    none

/-- Embeds the character loop of deserialize_prometheus_duration
(src/response.rs lines 79-114). `total` is total_milliseconds and `rawNum`
is the pending digit run. The peekable next_if_eq on the unit m is the
dedicated first arm for an m immediately followed by an s: the digit test
cannot fire on m, and the source parses the pending run before matching the
unit, so the arm is exactly the path the source takes there. The source
accumulates in a signed 64-bit integer but documents (lines 57-60) that the
total never exceeds that range, so the accumulator is an unbounded integer;
on inputs whose products or total exceed that range the source wraps or
panics while this model returns the exact sum, so any theorem quantifying
over unbounded inputs carries a fits-in-i64 side condition on the total
(every contribution is non-negative, so that bound also bounds every
intermediate product and prefix sum). -/
def durationLoop : List Char → Int → List Char → Except String Int
  | [], total, _ => .ok total
  | 'm' :: 's' :: rest, total, rawNum =>
    (match parseI64 rawNum with
     | none => .error "invalid digit found in string"
     | some num => durationLoop rest (total + num * 1000 * 60 * 60) [])
  | c :: rest, total, rawNum =>
    if c.isDigit then
      durationLoop rest total (rawNum ++ [c])
    else
      match parseI64 rawNum with
      | none => .error "invalid digit found in string"
      | some num =>
        if c = 'y' then
          durationLoop rest (total + num * 1000 * 60 * 60 * 24 * 365) []
        else if c = 'w' then
          durationLoop rest (total + num * 1000 * 60 * 60 * 24 * 7) []
        else if c = 'd' then
          durationLoop rest (total + num * 1000 * 60 * 60 * 24) []
        else if c = 'h' then
          durationLoop rest (total + num * 1000 * 60 * 60) []
        else if c = 'm' then
          durationLoop rest (total + num * 1000 * 60) []
        else if c = 's' then
          durationLoop rest (total + num * 1000) []
        else
          .error "invalid time duration"

/-- Embeds deserialize_prometheus_duration (src/response.rs) on the string
already extracted from the JSON document; the result is the total amount of
milliseconds of the returned Duration. -/
def deserialize_prometheus_duration (s : String) : Except String Int :=
  durationLoop s.data 0 []

/-- The six single-character duration units. -/
inductive DurUnit where
  | y
  | w
  | d
  | h
  | m
  | s
deriving DecidableEq

/-- The character written for each single-character unit. -/
def durUnitChar : DurUnit → Char
  | .y => 'y'
  | .w => 'w'
  | .d => 'd'
  | .h => 'h'
  | .m => 'm'
  | .s => 's'

/-- Fixed millisecond multiplier of each single-character unit:
y = 365 d, w = 7 d, d = 24 h, h = 60 m, m = 60 s, s = 1000 ms. -/
def durUnitMillis : DurUnit → Int
  | .y => 1000 * 60 * 60 * 24 * 365
  | .w => 1000 * 60 * 60 * 24 * 7
  | .d => 1000 * 60 * 60 * 24
  | .h => 1000 * 60 * 60
  | .m => 1000 * 60
  | .s => 1000

/-- A duration string laid out as consecutive digit-run and unit pairs. -/
def renderPairs (ps : List (List Char × DurUnit)) : List Char :=
  (ps.map (fun p => p.1 ++ [durUnitChar p.2])).flatten

/-- The millisecond total that the specification assigns to a list of
digit-run and unit pairs. -/
def pairsMillis (ps : List (List Char × DurUnit)) : Int :=
  (ps.map (fun p => (decimalVal p.1 : Int) * durUnitMillis p.2)).sum

/-- A well-formed pair: a non-empty digit run whose value fits in a signed
64-bit integer. -/
def GoodPair (p : List Char × DurUnit) : Prop :=
  p.1 ≠ [] ∧ (∀ c ∈ p.1, c.isDigit = true) ∧ decimalVal p.1 ≤ i64Max

instance (p : List Char × DurUnit) : Decidable (GoodPair p) := by
  unfold GoodPair
  infer_instance

/-- The value of a 64-bit float, at the precision the claims need: finite
values are kept as exact rationals (the decimal literals of interest are
exactly representable), and the special not-a-number and infinity tokens
are kept symbolic. -/
inductive FloatVal where
  | finite (q : ℚ)
  | nan
  | infinite (neg : Bool)
deriving DecidableEq

/-- Case-insensitive comparison of a character run with a lower-case word. -/
def lowerIs (s : List Char) (t : List Char) : Bool :=
  s.map Char.toLower == t

/-- An optional leading sign; returns whether the sign is negative and the
remaining characters. -/
def parseSign : List Char → Bool × List Char
  | '+' :: r => (false, r)
  | '-' :: r => (true, r)
  | r => (false, r)

/-- The pieces of an accepted float token before evaluation: sign, integer
part, fractional digits (value and count) and exponent for a decimal or
scientific literal, or one of the special tokens. -/
inductive FloatTok where
  | finite (neg : Bool) (ip : Nat) (frac : Nat) (fracLen : Nat) (exp : Int)
  | nan
  | infinite (neg : Bool)
deriving DecidableEq

/-- The exponent part after the e: an optional sign and a non-empty digit
run, which must end the token. -/
def parseExpPart (l : List Char) : Option Int :=
  let sr := parseSign l
  let dr := sr.2.span Char.isDigit
  if dr.1 ≠ [] ∧ dr.2 = [] then
    some (if sr.1 then -(decimalVal dr.1 : Int) else (decimalVal dr.1 : Int))
  else
    none

/-- Finishes a decimal literal: integer part, fractional digits, and an
optional exponent part that must consume the rest of the token. -/
def finishNumber (ip : Nat) (frac : List Char) (rest : List Char) :
    Option (Nat × Nat × Nat × Int) :=
  match rest with
  | [] => some (ip, decimalVal frac, frac.length, 0)
  | 'e' :: r => (parseExpPart r).map (fun e => (ip, decimalVal frac, frac.length, e))
  | 'E' :: r => (parseExpPart r).map (fun e => (ip, decimalVal frac, frac.length, e))
  | _ => none

/-- The unsigned body of a decimal literal: either digits, an optional dot,
optional further digits and an optional exponent, or a dot followed by
digits and an optional exponent. -/
def parseNumberBody (l : List Char) : Option (Nat × Nat × Nat × Int) :=
  match l with
  | '.' :: r =>
    let dr := r.span Char.isDigit
    if dr.1 = [] then none else finishNumber 0 dr.1 dr.2
  | _ =>
    let dr := l.span Char.isDigit
    if dr.1 = [] then none
    else
      match dr.2 with
      | '.' :: r2 =>
        let fr := r2.span Char.isDigit
        finishNumber (decimalVal dr.1) fr.1 fr.2
      | r1 => finishNumber (decimalVal dr.1) [] r1

/-- Models the token language of the standard f64 from_str routine on its
documented grammar: an optional sign followed by one of the case-insensitive
tokens inf, infinity or nan, or by a decimal/scientific literal. -/
def f64Tok (s : String) : Option FloatTok :=
  let sr := parseSign s.data
  if lowerIs sr.2 ['i', 'n', 'f'] || lowerIs sr.2 ['i', 'n', 'f', 'i', 'n', 'i', 't', 'y'] then
    some (.infinite sr.1)
  else if lowerIs sr.2 ['n', 'a', 'n'] then
    some .nan
  else
    (parseNumberBody sr.2).map (fun p => .finite sr.1 p.1 p.2.1 p.2.2.1 p.2.2.2)

/-- The numeric value of an accepted float token. Finite values are kept as
exact rationals instead of being rounded to the nearest binary double. -/
def FloatTok.val : FloatTok → FloatVal
  | .finite neg ip frac fracLen exp =>
    .finite ((if neg then (-1 : ℚ) else 1) * (((ip : ℚ) + (frac : ℚ) / (10 : ℚ) ^ fracLen) * (10 : ℚ) ^ exp))
  | .nan => .nan
  | .infinite b => .infinite b

/-- Models the standard f64 from_str routine of the Rust library: the token
grammar composed with the token evaluation. -/
def f64FromStr (s : String) : Option FloatVal :=
  (f64Tok s).map FloatTok.val

/-- Embeds deserialize_f64 (src/response.rs lines 24-36): the token must be
a JSON string, and its content must parse as a float; otherwise the decode
fails with an invalid-value error naming the offending string. -/
def deserialize_f64 : Json → Except String FloatVal
  | .str s =>
    match f64FromStr s with
    | some v => .ok v
    | none =>
      .error ("invalid value: string " ++ s ++ ", expected a float value inside a quoted JSON string")
  | _ => .error "invalid type: expected a string"

/-- A date and time with no UTC offset, the shape the build-date field
decodes to. -/
structure PrimitiveDateTime where
  year : Int
  month : Nat
  day : Nat
  hour : Nat
  minute : Nat
  second : Nat
deriving DecidableEq

/-- Leap years of the proleptic Gregorian calendar. -/
def isLeapYear (y : Int) : Bool :=
  y % 4 == 0 && (y % 100 != 0 || y % 400 == 0)

/-- Number of days of a month in a given year. -/
def daysInMonth (y : Int) (m : Nat) : Nat :=
  if m = 2 then (if isLeapYear y then 29 else 28)
  else if m = 4 ∨ m = 6 ∨ m = 9 ∨ m = 11 then 30
  else 31

/-- Exactly two digit characters, returning their value and the rest. -/
def takeTwoDigits : List Char → Option (Nat × List Char)
  | a :: b :: r =>
    if a.isDigit && b.isDigit then some (decimalVal [a, b], r) else none
  | _ => none

/-- Exactly four digit characters, returning their value and the rest. -/
def takeFourDigits : List Char → Option (Nat × List Char)
  | a :: b :: c :: d :: r =>
    if a.isDigit && b.isDigit && c.isDigit && d.isDigit then
      some (decimalVal [a, b, c, d], r)
    else
      none
  | _ => none

/-- A required literal separator character. -/
def expectChar (c : Char) : List Char → Option (List Char)
  | x :: r => if x = c then some r else none
  | [] => none

/-- Models PrimitiveDateTime::parse against the fixed format description of
BUILD_INFO_DATE_FORMAT (src/response.rs lines 20-22): a four-digit year,
two-digit month, day, hour, minute and second with the literal separators
of yyyymmdd-hh:mm:ss, consuming the whole input, and valid as a calendar
date and a 24-hour wall-clock time. -/
def parseBuildDate (s : String) : Option PrimitiveDateTime := do
  let (y, r1) ← takeFourDigits s.data
  let (mo, r2) ← takeTwoDigits r1
  let (d, r3) ← takeTwoDigits r2
  let r4 ← expectChar '-' r3
  let (h, r5) ← takeTwoDigits r4
  let r6 ← expectChar ':' r5
  let (mi, r7) ← takeTwoDigits r6
  let r8 ← expectChar ':' r7
  let (se, r9) ← takeTwoDigits r8
  if r9 = [] ∧ 1 ≤ mo ∧ mo ≤ 12 ∧ 1 ≤ d ∧ d ≤ daysInMonth (y : Int) mo ∧
      h ≤ 23 ∧ mi ≤ 59 ∧ se ≤ 59 then
    some ⟨(y : Int), mo, d, h, mi, se⟩
  else
    none

/-- Embeds deserialize_build_info_date (src/response.rs lines 39-53): the
token must be a JSON string matching the fixed build-date pattern; any
other shape fails with an invalid-value error naming the expected
pattern. -/
def deserialize_build_info_date : Json → Except String PrimitiveDateTime
  | .str s =>
    match parseBuildDate s with
    | some v => .ok v
    | none =>
      .error ("invalid value: string " ++ s ++ ", expected a datetime string in format <yyyymmdd-hh:mm:ss>")
  | _ => .error "invalid type: expected a string"

/-- First field of an object whose key equals the given name (the JSON
library rejects duplicate recognized keys, so on accepted documents the
first match is the only one). -/
def getField (fields : List (String × Json)) (k : String) : Option Json :=
  match fields with
  | [] => none
  | (k2, v) :: rest => if k2 = k then some v else getField rest k

/-- First field of an object whose key is the field name or one of its
serde aliases. -/
def getFieldIn (fields : List (String × Json)) (ks : List String) : Option Json :=
  match fields with
  | [] => none
  | (k2, v) :: rest => if k2 ∈ ks then some v else getFieldIn rest ks

/-- A JSON number decoded as an f64 field. -/
def decodeF64Num : Json → Except String ℚ
  | .num q => .ok q
  | _ => .error "invalid type: expected a number"

/-- A JSON number decoded as an i64 field: an integer within the signed
64-bit range. -/
def decodeI64 : Json → Except String Int
  | .num q =>
    if q.den = 1 ∧ -((2 : Int) ^ 63) ≤ q.num ∧ q.num ≤ (2 : Int) ^ 63 - 1 then
      .ok q.num
    else
      .error "invalid value: expected a signed 64-bit integer"
  | _ => .error "invalid type: expected a number"

/-- A JSON number decoded as a usize field: a non-negative integer within
the unsigned 64-bit range. -/
def decodeUsize : Json → Except String Nat
  | .num q =>
    if q.den = 1 ∧ 0 ≤ q.num ∧ q.num ≤ (2 : Int) ^ 64 - 1 then
      .ok q.num.toNat
    else
      .error "invalid value: expected an unsigned 64-bit integer"
  | _ => .error "invalid type: expected a number"

/-- The entries of a string-to-string map object. -/
def decodeStringPairs : List (String × Json) → Except String (List (String × String))
  | [] => .ok []
  | (k, .str v) :: rest => (decodeStringPairs rest).map (fun r => (k, v) :: r)
  | (_, _) :: _ => .error "invalid type: expected a string"

/-- Embeds a HashMap of String to String field: an object whose values are
all strings, kept in document order. -/
def decodeStringMap : Json → Except String (List (String × String))
  | .obj fields => decodeStringPairs fields
  | _ => .error "invalid type: expected a map"

/-- Decodes every element of a JSON array, failing on the first error. -/
def decodeListWith {A : Type} (dec : Json → Except String A) :
    List Json → Except String (List A)
  | [] => .ok []
  | j :: rest => do
    let a ← dec j
    let as ← decodeListWith dec rest
    .ok (a :: as)

/-- Embeds Sample (src/response.rs lines 330-335): a timestamp and a
value, the value carried as a quoted string run through deserialize_f64. -/
structure Sample where
  timestamp : ℚ
  value : FloatVal
deriving DecidableEq

/-- Embeds the derived Sample deserialization on its wire form, the
two-element array of a JSON number and a quoted value string. -/
def decodeSample : Json → Except String Sample
  | .arr [t, v] => do
    let ts ← decodeF64Num t
    let fv ← deserialize_f64 v
    .ok ⟨ts, fv⟩
  | _ => .error "invalid type: expected a two-element array"

/-- Embeds InstantVector (src/response.rs lines 278-283). -/
structure InstantVector where
  metric : List (String × String)
  sample : Sample
deriving DecidableEq

/-- Embeds RangeVector (src/response.rs lines 304-309). -/
structure RangeVector where
  metric : List (String × String)
  samples : List Sample
deriving DecidableEq

/-- Embeds the derived InstantVector deserialization: a metric label map
and a sample, the latter also accepted under its wire alias value. -/
def decodeInstantVector : Json → Except String InstantVector
  | .obj fields => do
    let mj ← match getField fields "metric" with
      | some mj => pure mj
      | none => Except.error "missing field metric"
    let m ← decodeStringMap mj
    let sj ← match getFieldIn fields ["sample", "value"] with
      | some sj => pure sj
      | none => Except.error "missing field sample"
    let s ← decodeSample sj
    .ok ⟨m, s⟩
  | _ => .error "invalid type: expected a map"

/-- Embeds the derived RangeVector deserialization: a metric label map and
a list of samples, the latter also accepted under its wire alias values. -/
def decodeRangeVector : Json → Except String RangeVector
  | .obj fields => do
    let mj ← match getField fields "metric" with
      | some mj => pure mj
      | none => Except.error "missing field metric"
    let m ← decodeStringMap mj
    let sj ← match getFieldIn fields ["samples", "values"] with
      | some sj => pure sj
      | none => Except.error "missing field samples"
    match sj with
    | .arr xs => (decodeListWith decodeSample xs).map (fun l => RangeVector.mk m l)
    | _ => .error "invalid type: expected an array"
  | _ => .error "invalid type: expected a map"

/-- Embeds the Data enum (src/response.rs lines 255-264): the possible
result types of expression queries. -/
inductive Data where
  | vector (v : List InstantVector)
  | matrix (v : List RangeVector)
  | scalar (s : Sample)
deriving DecidableEq

/-- Embeds Data::is_empty (src/response.rs lines 266-275). -/
def Data.is_empty : Data → Bool
  | .vector v => v.isEmpty
  | .matrix v => v.isEmpty
  | .scalar _ => false

/-- Embeds the adjacently tagged Data deserialization (tag resultType,
content result): the serde alias adds the wire spelling next to each
variant name, so the capitalized variant names are accepted tags as well;
keys other than resultType and result are ignored. -/
def decodeData : Json → Except String Data
  | .obj fields => do
    let tag ← match getField fields "resultType" with
      | some (.str t) => pure t
      | some _ => Except.error "invalid type: expected a string"
      | none => Except.error "missing field resultType"
    if tag = "Vector" ∨ tag = "vector" ∨ tag = "Matrix" ∨ tag = "matrix" ∨
        tag = "Scalar" ∨ tag = "scalar" then do
      let rj ← match getField fields "result" with
        | some rj => pure rj
        | none => Except.error "missing field result"
      if tag = "Vector" ∨ tag = "vector" then
        match rj with
        | .arr xs => (decodeListWith decodeInstantVector xs).map Data.vector
        | _ => .error "invalid type: expected an array"
      else if tag = "Matrix" ∨ tag = "matrix" then
        match rj with
        | .arr xs => (decodeListWith decodeRangeVector xs).map Data.matrix
        | _ => .error "invalid type: expected an array"
      else
        (decodeSample rj).map Data.scalar
    else
      .error ("unknown variant " ++ tag)
  | _ => .error "invalid type: expected a map"

/-- Embeds Timings (src/response.rs lines 145-159): six f64 fields, each
with a camel-case wire alias. -/
structure Timings where
  eval_total_time : ℚ
  result_sort_time : ℚ
  query_preparation_time : ℚ
  inner_eval_time : ℚ
  exec_queue_time : ℚ
  exec_total_time : ℚ
deriving DecidableEq

/-- A required f64 field under a field name or one of its aliases. -/
def reqF64 (fields : List (String × Json)) (ks : List String) (fieldName : String) :
    Except String ℚ :=
  match getFieldIn fields ks with
  | some j => decodeF64Num j
  | none => .error ("missing field " ++ fieldName)

/-- A required string field under a field name or one of its aliases. -/
def reqString (fields : List (String × Json)) (ks : List String) (fieldName : String) :
    Except String String :=
  match getFieldIn fields ks with
  | some (.str s) => .ok s
  | some _ => .error "invalid type: expected a string"
  | none => .error ("missing field " ++ fieldName)

/-- Embeds the derived Timings deserialization. -/
def decodeTimings : Json → Except String Timings
  | .obj fields => do
    let a ← reqF64 fields ["eval_total_time", "evalTotalTime"] "eval_total_time"
    let b ← reqF64 fields ["result_sort_time", "resultSortTime"] "result_sort_time"
    let c ← reqF64 fields ["query_preparation_time", "queryPreparationTime"] "query_preparation_time"
    let d ← reqF64 fields ["inner_eval_time", "innerEvalTime"] "inner_eval_time"
    let e ← reqF64 fields ["exec_queue_time", "execQueueTime"] "exec_queue_time"
    let f ← reqF64 fields ["exec_total_time", "execTotalTime"] "exec_total_time"
    .ok ⟨a, b, c, d, e, f⟩
  | _ => .error "invalid type: expected a map"

/-- Embeds SamplesPerStep (src/response.rs lines 212-216) on its wire form,
the two-element array of a timestamp and a count. -/
structure SamplesPerStep where
  timestamp : ℚ
  value : Nat
deriving DecidableEq

/-- Embeds the derived SamplesPerStep deserialization. -/
def decodeSamplesPerStep : Json → Except String SamplesPerStep
  | .arr [t, v] => do
    let ts ← decodeF64Num t
    let n ← decodeUsize v
    .ok ⟨ts, n⟩
  | _ => .error "invalid type: expected a two-element array"

/-- Embeds Samples (src/response.rs lines 187-195): an optional per-step
list and two required i64 counters, each with a camel-case wire alias. -/
structure Samples where
  total_queryable_samples_per_step : Option (List SamplesPerStep)
  total_queryable_samples : Int
  peak_samples : Int
deriving DecidableEq

/-- Embeds the derived Samples deserialization; the optional per-step field
decodes to the absent marker when missing or null. -/
def decodeSamples : Json → Except String Samples
  | .obj fields => do
    let per ← match getFieldIn fields
        ["total_queryable_samples_per_step", "totalQueryableSamplesPerStep"] with
      | none => pure none
      | some Json.null => pure none
      | some (.arr xs) => (decodeListWith decodeSamplesPerStep xs).map some
      | some _ => Except.error "invalid type: expected an array"
    let tot ← match getFieldIn fields ["total_queryable_samples", "totalQueryableSamples"] with
      | some j => decodeI64 j
      | none => Except.error "missing field total_queryable_samples"
    let peak ← match getFieldIn fields ["peak_samples", "peakSamples"] with
      | some j => decodeI64 j
      | none => Except.error "missing field peak_samples"
    .ok ⟨per, tot, peak⟩
  | _ => .error "invalid type: expected a map"

/-- Embeds Stats (src/response.rs lines 129-133). -/
structure Stats where
  timings : Timings
  samples : Samples
deriving DecidableEq

/-- Embeds the derived Stats deserialization. -/
def decodeStats : Json → Except String Stats
  | .obj fields => do
    let t ← match getField fields "timings" with
      | some j => decodeTimings j
      | none => Except.error "missing field timings"
    let s ← match getField fields "samples" with
      | some j => decodeSamples j
      | none => Except.error "missing field samples"
    .ok ⟨t, s⟩
  | _ => .error "invalid type: expected a map"

/-- Embeds PromqlResult (src/response.rs lines 230-235): the flattened
result data next to an optional stats field. -/
structure PromqlResult where
  data : Data
  stats : Option Stats
deriving DecidableEq

/-- Embeds the derived PromqlResult deserialization. serde(flatten) reads
the named stats field and hands the remaining fields to the Data
deserializer; since that deserializer ignores keys other than resultType
and result, handing it the full field list is equivalent. -/
def decodePromqlResult : Json → Except String PromqlResult
  | .obj fields => do
    let st ← match getField fields "stats" with
      | none => pure none
      | some Json.null => pure none
      | some sj => (decodeStats sj).map some
    let d ← decodeData (.obj fields)
    .ok ⟨d, st⟩
  | _ => .error "invalid type: expected a map"

/-- Modelled from the spec: PrometheusError lives in src/error.rs, which is
not among the sources; per the spec an error payload must carry an
errorType kind string (unrecognized kinds are preserved as data rather than
rejected) and an error message string. -/
structure PrometheusError where
  error_type : String
  message : String
deriving DecidableEq

/-- Modelled from the spec: the PrometheusError deserialization requires
the errorType and error string fields and ignores other keys. -/
def decodePrometheusError : Json → Except String PrometheusError
  | .obj fields => do
    let k ← match getField fields "errorType" with
      | some (.str k) => pure k
      | some _ => Except.error "invalid type: expected a string"
      | none => Except.error "missing field errorType"
    let m ← match getField fields "error" with
      | some (.str m) => pure m
      | some _ => Except.error "invalid type: expected a string"
      | none => Except.error "missing field error"
    .ok ⟨k, m⟩
  | _ => .error "invalid type: expected a map"

/-- Embeds ApiResponse (src/response.rs lines 120-127): the internally
tagged success/error envelope. -/
inductive ApiResponse (D : Type) where
  | success (data : D)
  | error (e : PrometheusError)
deriving DecidableEq

/-- Embeds the internally tagged ApiResponse deserialization: the status
field selects the variant; serde alias adds the wire spelling next to the
variant name, so both Success and success (and Error and error) are
accepted tags; the Success variant requires a data field decoded by the
given data decoder, and the Error variant hands the fields to the
PrometheusError deserializer, which ignores the unrelated ones. -/
def decodeApiResponse {D : Type} (dec : Json → Except String D) :
    Json → Except String (ApiResponse D)
  | .obj fields => do
    let tag ← match getField fields "status" with
      | some (.str t) => pure t
      | some _ => Except.error "invalid type: expected a string"
      | none => Except.error "missing field status"
    if tag = "Success" ∨ tag = "success" then
      match getField fields "data" with
      | some dj => (dec dj).map ApiResponse.success
      | none => .error "missing field data"
    else if tag = "Error" ∨ tag = "error" then
      (decodePrometheusError (.obj fields)).map ApiResponse.error
    else
      .error ("unknown variant " ++ tag)
  | _ => .error "invalid type: expected a map"

/-- Embeds MetricType (src/response.rs lines 756-774). -/
inductive MetricType where
  | counter
  | gauge
  | histogram
  | gaugeHistogram
  | summary
  | info
  | stateset
  | unknown
deriving DecidableEq

/-- Embeds the derived MetricType deserialization; each variant name and
its lower-case wire alias are accepted. -/
def decodeMetricType : Json → Except String MetricType
  | .str s =>
    if s = "Counter" ∨ s = "counter" then .ok .counter
    else if s = "Gauge" ∨ s = "gauge" then .ok .gauge
    else if s = "Histogram" ∨ s = "histogram" then .ok .histogram
    else if s = "GaugeHistogram" ∨ s = "gaugehistogram" then .ok .gaugeHistogram
    else if s = "Summary" ∨ s = "summary" then .ok .summary
    else if s = "Info" ∨ s = "info" then .ok .info
    else if s = "Stateset" ∨ s = "stateset" then .ok .stateset
    else if s = "Unknown" ∨ s = "unknown" then .ok .unknown
    else .error ("unknown variant " ++ s)
  | _ => .error "invalid type: expected a string"

/-- Embeds TargetMetadata (src/response.rs lines 826-834). -/
structure TargetMetadata where
  target : List (String × String)
  metric_type : MetricType
  metric : Option String
  help : String
  unit : String
deriving DecidableEq

/-- Embeds the derived TargetMetadata deserialization: the metric-type
field is accepted under its wire alias type, and the optional metric name
decodes to the absent marker when missing or null. -/
def decodeTargetMetadata : Json → Except String TargetMetadata
  | .obj fields => do
    let t ← match getField fields "target" with
      | some j => decodeStringMap j
      | none => Except.error "missing field target"
    let mt ← match getFieldIn fields ["metric_type", "type"] with
      | some j => decodeMetricType j
      | none => Except.error "missing field metric_type"
    let met ← match getField fields "metric" with
      | none => pure none
      | some Json.null => pure none
      | some (.str s) => pure (some s)
      | some _ => Except.error "invalid type: expected a string"
    let h ← reqString fields ["help"] "help"
    let u ← reqString fields ["unit"] "unit"
    .ok ⟨t, mt, met, h, u⟩
  | _ => .error "invalid type: expected a map"

/-- Embeds BuildInformation (src/response.rs lines 890-902). -/
structure BuildInformation where
  version : String
  revision : String
  branch : String
  build_user : String
  build_date : PrimitiveDateTime
  go_version : String
deriving DecidableEq

/-- Embeds the derived BuildInformation deserialization: four plain string
fields, the fixed-format build date and the Go version, with camel-case
wire aliases where the source declares them. -/
def decodeBuildInformation : Json → Except String BuildInformation
  | .obj fields => do
    let v ← reqString fields ["version"] "version"
    let r ← reqString fields ["revision"] "revision"
    let b ← reqString fields ["branch"] "branch"
    let bu ← reqString fields ["build_user", "buildUser"] "build_user"
    let bd ← match getFieldIn fields ["build_date", "buildDate"] with
      | some j => deserialize_build_info_date j
      | none => Except.error "missing field build_date"
    let gv ← reqString fields ["go_version", "goVersion"] "go_version"
    .ok ⟨v, r, b, bu, bd, gv⟩
  | _ => .error "invalid type: expected a map"

/-- Embeds TsdbItemCount (src/response.rs lines 1088-1092). -/
structure TsdbItemCount where
  name : String
  value : Nat
deriving DecidableEq

/-- Embeds the derived TsdbItemCount deserialization. -/
def decodeTsdbItemCount : Json → Except String TsdbItemCount
  | .obj fields => do
    let n ← reqString fields ["name"] "name"
    let v ← match getField fields "value" with
      | some j => decodeUsize j
      | none => Except.error "missing field value"
    .ok ⟨n, v⟩
  | _ => .error "invalid type: expected a map"

/-- Embeds WalReplayState (src/response.rs lines 1133-1141). -/
inductive WalReplayState where
  | waiting
  | inProgress
  | done
deriving DecidableEq

/-- Embeds the derived WalReplayState deserialization; each variant name
and its wire alias are accepted. -/
def decodeWalReplayState : Json → Except String WalReplayState
  | .str s =>
    if s = "Waiting" ∨ s = "waiting" then .ok .waiting
    else if s = "InProgress" ∨ s = "in progress" then .ok .inProgress
    else if s = "Done" ∨ s = "done" then .ok .done
    else .error ("unknown variant " ++ s)
  | _ => .error "invalid type: expected a string"

/-- Embeds WalReplayStatistics (src/response.rs lines 1107-1113). -/
structure WalReplayStatistics where
  min : Nat
  max : Nat
  current : Nat
  state : Option WalReplayState
deriving DecidableEq

/-- Embeds the derived WalReplayStatistics deserialization: three required
counters and an optional state that decodes to the absent marker when
missing or null. -/
def decodeWalReplayStatistics : Json → Except String WalReplayStatistics
  | .obj fields => do
    let mn ← match getField fields "min" with
      | some j => decodeUsize j
      | none => Except.error "missing field min"
    let mx ← match getField fields "max" with
      | some j => decodeUsize j
      | none => Except.error "missing field max"
    let cu ← match getField fields "current" with
      | some j => decodeUsize j
      | none => Except.error "missing field current"
    let st ← match getField fields "state" with
      | none => pure none
      | some Json.null => pure none
      | some j => (decodeWalReplayState j).map some
    .ok ⟨mn, mx, cu, st⟩
  | _ => .error "invalid type: expected a map"

/-- Modelled from the spec: the query-execution shell of src/client.rs
walks the response map by hand; the Value shape it constructs lives outside
the given sources and is taken from its constructor use in parse_response,
a timestamp and the raw value string. -/
structure Value where
  timestamp : ℚ
  value : String
deriving DecidableEq

/-- Modelled from the spec: one series of the shell's vector result, a
label map and one value, from the constructor use in parse_response. -/
structure VectorSample where
  labels : List (String × String)
  value : Value
deriving DecidableEq

/-- Modelled from the spec: one series of the shell's matrix result, a
label map and a value list, from the constructor use in parse_response. -/
structure MatrixSample where
  labels : List (String × String)
  values : List Value
deriving DecidableEq

/-- Modelled from the spec: the shell's response union over its two
supported result types, from the constructor uses in parse_response. -/
inductive Response where
  | vector (v : List VectorSample)
  | matrix (v : List MatrixSample)
deriving DecidableEq

/-- Modelled from the spec: the classified errors the shell returns live in
crate::error outside the given sources; per the error taxonomy they are a
protocol error with kind and message, an unknown response status, and an
unsupported result type, each carrying the raw strings parse_response
passes to their constructors. -/
inductive ShellError where
  | responseError (kind : String) (message : String)
  | unknownResponseStatus (status : String)
  | unsupportedResponseDataType (dataType : String)
deriving DecidableEq

/-- Outcome of the shell's response parsing: a typed response, a classified
error, or a panic of one of the unchecked unwrap and index operations. -/
inductive ShellOutcome where
  | ok (r : Response)
  | err (e : ShellError)
  | panicked
deriving DecidableEq

/-- Models as_str of the JSON library value type. -/
def Json.asStr : Json → Option String
  | .str s => some s
  | _ => none

/-- Models as_f64 of the JSON library value type (any JSON number). -/
def Json.asF64 : Json → Option ℚ
  | .num q => some q
  | _ => none

/-- Models as_array of the JSON library value type. -/
def Json.asArray : Json → Option (List Json)
  | .arr l => some l
  | _ => none

/-- Models as_object of the JSON library value type. -/
def Json.asObject : Json → Option (List (String × Json))
  | .obj f => some f
  | _ => none

/-- Models indexing a JSON value or object by key: Null when the key is
missing or the value is not an object. -/
def Json.index (j : Json) (k : String) : Json :=
  match j with
  | .obj f => (getField f k).getD .null
  | _ => .null

/-- Models indexing a JSON value by position: Null when out of range or not
an array. -/
def Json.atIndex (j : Json) (i : Nat) : Json :=
  match j with
  | .arr l => (l.get? i).getD .null
  | _ => .null

/-- The label-collection loop of parse_response (src/client.rs lines
176-181 and 201-206): every label value must be a string or the unwrap
panics (none). -/
def shellLabels : List (String × Json) → Option (List (String × String))
  | [] => some []
  | (k, v) :: rest => do
    let s ← v.asStr
    let r ← shellLabels rest
    some ((k, s) :: r)

/-- One vector datum of parse_response (src/client.rs lines 173-191): the
metric object, then the two-element value array; a failed unwrap is a
panic (none), and the value array is a Vec, so positional indexing panics
when out of range. -/
def shellVectorSample (datum : Json) : Option VectorSample := do
  let mobj ← (datum.index "metric").asObject
  let labels ← shellLabels mobj
  let rawValue ← (datum.index "value").asArray
  let t ← rawValue.get? 0
  let ts ← t.asF64
  let v ← rawValue.get? 1
  let vs ← v.asStr
  some ⟨labels, ⟨ts, vs⟩⟩

/-- The inner values loop of the matrix branch (src/client.rs lines
210-215): each entry is indexed as a JSON value, so a missing position
yields Null and the following unwrap panics. -/
def shellValues : List Json → Option (List Value)
  | [] => some []
  | v :: rest => do
    let ts ← (v.atIndex 0).asF64
    let vs ← (v.atIndex 1).asStr
    let r ← shellValues rest
    some (Value.mk ts vs :: r)

/-- One matrix datum of parse_response (src/client.rs lines 198-217). -/
def shellMatrixSample (datum : Json) : Option MatrixSample := do
  let mobj ← (datum.index "metric").asObject
  let labels ← shellLabels mobj
  let vl ← (datum.index "values").asArray
  let vs ← shellValues vl
  some ⟨labels, vs⟩

/-- The per-datum loop of a success branch of parse_response. -/
def shellMapData {A : Type} (f : Json → Option A) : List Json → Option (List A)
  | [] => some []
  | j :: rest => do
    let a ← f j
    let r ← shellMapData f rest
    some (a :: r)

/-- Embeds parse_response (src/client.rs lines 160-241) over the response
map handed over by the JSON library. Indexing the HashMap panics on a
missing key, and each unchecked unwrap panics on a wrong JSON kind; both
are the panicked outcome. The nested resultType and result lookups go
through the data object, where a missing key yields Null and the following
unwrap panics. -/
def parse_response (response : List (String × Json)) : ShellOutcome :=
  match getField response "status" with
  | none => .panicked
  | some sv =>
    match sv.asStr with
    | none => .panicked
    | some status =>
      if status = "success" then
        match getField response "data" with
        | none => .panicked
        | some dv =>
          match dv.asObject with
          | none => .panicked
          | some dataObj =>
            match (Json.index (.obj dataObj) "resultType").asStr with
            | none => .panicked
            | some dataType =>
              match (Json.index (.obj dataObj) "result").asArray with
              | none => .panicked
              | some data =>
                if dataType = "vector" then
                  match shellMapData shellVectorSample data with
                  | none => .panicked
                  | some result => .ok (.vector result)
                else if dataType = "matrix" then
                  match shellMapData shellMatrixSample data with
                  | none => .panicked
                  | some result => .ok (.matrix result)
                else
                  .err (.unsupportedResponseDataType dataType)
      else if status = "error" then
        match getField response "errorType" with
        | none => .panicked
        | some kv =>
          match kv.asStr with
          | none => .panicked
          | some kind =>
            match getField response "error" with
            | none => .panicked
            | some mv =>
              match mv.asStr with
              | none => .panicked
              | some msg => .err (.responseError kind msg)
      else
        .err (.unknownResponseStatus status)

end PromHttp

namespace PromHttp

/-- C1: the claim says that when a numeral is followed by m and the next
character is s, the pair contributes exactly num milliseconds, and that
parsing the string 1ms yields 1 millisecond. The code does treat the pair
as the two-character unit (the s is consumed), but the branch adds
num * 1000 * 60 * 60, the hours multiplier, so parsing 1ms actually yields
3600000 milliseconds. This theorem evaluates the parser at the failing
input. -/
theorem duration_ms_unit_uses_hours_multiplier :
    deserialize_prometheus_duration "1ms" = .ok 3600000 := by decide

/-- C2 counterexample: the claim says the parser fails on the empty string
and on a bare numeral with no trailing unit, but both parse successfully to
a zero duration: the loop body never runs on the empty string and a
trailing digit run is dropped without being flushed. -/
theorem duration_empty_and_bare_numeral_succeed :
    deserialize_prometheus_duration "" = .ok 0 ∧
    deserialize_prometheus_duration "5" = .ok 0 := by decide

/-- C2 amended: the parser fails with a grammar error on an unknown unit
character such as 5x (and on a unit with no preceding digits, such as s),
but it returns a zero duration for the empty string (the source documents
non-empty input as a caller precondition) and silently ignores a trailing
bare numeral, so 5 parses to 0 milliseconds. -/
theorem duration_error_cases :
    deserialize_prometheus_duration "5x" = .error "invalid time duration" ∧
    deserialize_prometheus_duration "s" = .error "invalid digit found in string" ∧
    deserialize_prometheus_duration "" = .ok 0 ∧
    deserialize_prometheus_duration "5" = .ok 0 := by decide

theorem durationLoop_digit (c : Char) (hc : c.isDigit = true) (l : List Char)
    (total : Int) (rawNum : List Char) :
    durationLoop (c :: l) total rawNum = durationLoop l total (rawNum ++ [c]) := by
  rw [durationLoop.eq_def]
  split
  · simp_all
  · rename_i harm
    injection harm with h1 h2
    subst h1
    exact absurd hc (by decide)
  · rename_i harm
    injection harm with h1 h2
    subst h1
    subst h2
    simp [hc]

theorem durationLoop_digits (ds : List Char) (hds : ∀ c ∈ ds, c.isDigit = true) :
    ∀ rest total rawNum,
      durationLoop (ds ++ rest) total rawNum = durationLoop rest total (rawNum ++ ds) := by
  induction ds with
  | nil => intro rest total rawNum; simp
  | cons c cs ih =>
    intro rest total rawNum
    have hc : c.isDigit = true := hds c (by simp)
    rw [List.cons_append, durationLoop_digit c hc, ih (fun x hx => hds x (by simp [hx]))]
    simp

theorem durationLoop_unit (u : DurUnit) (rest : List Char)
    (hrest : u = .m → ∀ l, rest ≠ 's' :: l)
    (rawNum : List Char) (hne : rawNum ≠ [])
    (hdig : ∀ c ∈ rawNum, c.isDigit = true) (hle : decimalVal rawNum ≤ i64Max)
    (total : Int) :
    durationLoop (durUnitChar u :: rest) total rawNum =
      durationLoop rest (total + (decimalVal rawNum : Int) * durUnitMillis u) [] := by
  have hparse : parseI64 rawNum = some ((decimalVal rawNum : Int)) := by
    unfold parseI64
    rw [if_pos]
    refine ⟨hne, ?_, hle⟩
    simpa using hdig
  cases u
  case y =>
    rw [durationLoop.eq_def]
    split
    · simp_all
    · rename_i harm
      injection harm with h1 h2
      exact absurd h1 (by decide)
    · rename_i harm
      injection harm with h1 h2
      subst h1
      subst h2
      simp [durUnitChar, hparse, durUnitMillis, mul_assoc, (by decide : ('y').isDigit = false)]
  case w =>
    rw [durationLoop.eq_def]
    split
    · simp_all
    · rename_i harm
      injection harm with h1 h2
      exact absurd h1 (by decide)
    · rename_i harm
      injection harm with h1 h2
      subst h1
      subst h2
      simp [durUnitChar, hparse, durUnitMillis, mul_assoc, (by decide : ('w').isDigit = false)]
  case d =>
    rw [durationLoop.eq_def]
    split
    · simp_all
    · rename_i harm
      injection harm with h1 h2
      exact absurd h1 (by decide)
    · rename_i harm
      injection harm with h1 h2
      subst h1
      subst h2
      simp [durUnitChar, hparse, durUnitMillis, mul_assoc, (by decide : ('d').isDigit = false)]
  case h =>
    rw [durationLoop.eq_def]
    split
    · simp_all
    · rename_i harm
      injection harm with h1 h2
      exact absurd h1 (by decide)
    · rename_i harm
      injection harm with h1 h2
      subst h1
      subst h2
      simp [durUnitChar, hparse, durUnitMillis, mul_assoc, (by decide : ('h').isDigit = false)]
  case s =>
    rw [durationLoop.eq_def]
    split
    · simp_all
    · rename_i harm
      injection harm with h1 h2
      exact absurd h1 (by decide)
    · rename_i harm
      injection harm with h1 h2
      subst h1
      subst h2
      simp [durUnitChar, hparse, durUnitMillis, mul_assoc, (by decide : ('s').isDigit = false)]
  case m =>
    cases rest with
    | nil =>
      rw [durationLoop.eq_def]
      split
      · simp_all
      · rename_i harm
        injection harm with h1 h2
        injection h2
      · rename_i harm
        injection harm with h1 h2
        subst h1
        subst h2
        simp [durUnitChar, hparse, durUnitMillis, mul_assoc, (by decide : ('m').isDigit = false)]
    | cons r rs =>
      have hrs : r ≠ 's' := by
        intro hr
        subst hr
        exact hrest rfl rs rfl
      rw [durationLoop.eq_def]
      split
      · simp_all
      · rename_i harm
        injection harm with h1 h2
        injection h2 with h3 h4
        exact absurd h3 hrs
      · rename_i harm
        injection harm with h1 h2
        subst h1
        subst h2
        simp [durUnitChar, hparse, durUnitMillis, mul_assoc, (by decide : ('m').isDigit = false)]

theorem renderPairs_not_s (ps : List (List Char × DurUnit))
    (h : ∀ p ∈ ps, GoodPair p) :
    ∀ l, renderPairs ps ≠ 's' :: l := by
  intro l hl
  cases ps with
  | nil => simp [renderPairs] at hl
  | cons p ps =>
    obtain ⟨hne, hdig, -⟩ := h p (by simp)
    cases hp : p.1 with
    | nil => exact hne hp
    | cons c cs =>
      have hc : c.isDigit = true := hdig c (by rw [hp]; simp)
      rw [renderPairs] at hl
      simp [hp] at hl
      obtain ⟨hc2, -⟩ := hl
      subst hc2
      exact absurd hc (by decide)

theorem durationLoop_renderPairs (ps : List (List Char × DurUnit))
    (h : ∀ p ∈ ps, GoodPair p) :
    ∀ total, durationLoop (renderPairs ps) total [] = .ok (total + pairsMillis ps) := by
  induction ps with
  | nil =>
    intro total
    simp [renderPairs, pairsMillis, durationLoop]
  | cons p ps ih =>
    intro total
    obtain ⟨hne, hdig, hle⟩ := h p (by simp)
    have htail : ∀ q ∈ ps, GoodPair q := fun q hq => h q (by simp [hq])
    have hrest : p.2 = .m → ∀ l, renderPairs ps ≠ 's' :: l :=
      fun _ => renderPairs_not_s ps htail
    have step1 : renderPairs (p :: ps) = p.1 ++ (durUnitChar p.2 :: renderPairs ps) := by
      simp [renderPairs]
    rw [step1, durationLoop_digits p.1 hdig, List.nil_append,
      durationLoop_unit p.2 (renderPairs ps) hrest p.1 hne hdig hle total,
      ih htail]
    have : pairsMillis (p :: ps) = (decimalVal p.1 : Int) * durUnitMillis p.2 + pairsMillis ps := by
      simp [pairsMillis]
    rw [this, add_assoc]

/-- C6: for every non-empty string laid out as consecutive integer and
single-character-unit pairs (units among y, w, d, h, m, s, each integer a
non-empty digit run whose value fits a signed 64-bit integer, so that the
embedded parse of the run succeeds), whose millisecond total also fits a
signed 64-bit integer — the caller obligation the source documents, and the
condition under which its i64 arithmetic never wraps, since every
contribution is non-negative and hence bounded by the total — the duration
parser returns the sum over all pairs of the integer times the fixed
millisecond multiplier (y=365d, w=7d, d=24h, h=60m, m=60s, s=1000ms);
repeated units are additive since each pair contributes independently;
concretely 1h parses to 3600000 ms and 1d to 86400000 ms. -/
theorem duration_sums_integer_unit_pairs :
    (∀ ps : List (List Char × DurUnit), ps ≠ [] → (∀ p ∈ ps, GoodPair p) →
      pairsMillis ps ≤ (i64Max : Int) →
      deserialize_prometheus_duration (String.mk (renderPairs ps)) = .ok (pairsMillis ps)) ∧
    deserialize_prometheus_duration "1h" = .ok 3600000 ∧
    deserialize_prometheus_duration "1d" = .ok 86400000 := by
  refine ⟨fun ps _ h _ => ?_, by decide, by decide⟩
  have h0 := durationLoop_renderPairs ps h 0
  rw [zero_add] at h0
  exact h0

/-- Witness for C6: the pair list rendering to 2h30m, with repeated use of
the theorem's hypotheses discharged at the concrete input. -/
theorem duration_sums_integer_unit_pairs_witness :
    deserialize_prometheus_duration "2h30m" = .ok 9000000 := by
  have h := duration_sums_integer_unit_pairs.1
    [(['2'], DurUnit.h), (['3', '0'], DurUnit.m)] (by decide) (by decide) (by decide)
  have e1 : String.mk (renderPairs [(['2'], DurUnit.h), (['3', '0'], DurUnit.m)]) = "2h30m" := by
    decide
  have e2 : pairsMillis [(['2'], DurUnit.h), (['3', '0'], DurUnit.m)] = 9000000 := by
    decide
  rw [e1, e2] at h
  exact h

/-- C7: the numeric coercion decodes a JSON string token by the standard
decimal/scientific grammar, accepting the literal tokens for not-a-number
and the infinities; concretely the string 1 decodes to 1.0 and the string
0.0 decodes to 0.0; and every token outside the grammar is rejected with a
type-mismatch error naming the offending string. -/
theorem deserialize_f64_follows_float_grammar :
    deserialize_f64 (.str "1") = .ok (.finite 1) ∧
    deserialize_f64 (.str "0.0") = .ok (.finite 0) ∧
    deserialize_f64 (.str "NaN") = .ok .nan ∧
    deserialize_f64 (.str "inf") = .ok (.infinite false) ∧
    deserialize_f64 (.str "-Inf") = .ok (.infinite true) ∧
    deserialize_f64 (.str "2.5e3") = .ok (.finite 2500) ∧
    (∀ s, f64FromStr s = none →
      deserialize_f64 (.str s) =
        .error ("invalid value: string " ++ s ++ ", expected a float value inside a quoted JSON string")) := by
  refine ⟨?_, ?_, ?_, ?_, ?_, ?_, ?_⟩
  · have h : f64Tok "1" = some (.finite false 1 0 0 0) := by decide
    simp [deserialize_f64, f64FromStr, h, FloatTok.val]
  · have h : f64Tok "0.0" = some (.finite false 0 0 1 0) := by decide
    simp [deserialize_f64, f64FromStr, h, FloatTok.val]
  · have h : f64Tok "NaN" = some .nan := by decide
    simp [deserialize_f64, f64FromStr, h, FloatTok.val]
  · have h : f64Tok "inf" = some (.infinite false) := by decide
    simp [deserialize_f64, f64FromStr, h, FloatTok.val]
  · have h : f64Tok "-Inf" = some (.infinite true) := by decide
    simp [deserialize_f64, f64FromStr, h, FloatTok.val]
  · have h : f64Tok "2.5e3" = some (.finite false 2 5 1 3) := by decide
    simp [deserialize_f64, f64FromStr, h, FloatTok.val]
    norm_num
  · intro s hs
    simp [deserialize_f64, hs]

/-- Witness for C7 at the non-numeric token abc. -/
theorem deserialize_f64_follows_float_grammar_witness :
    f64FromStr "abc" = none ∧
    deserialize_f64 (.str "abc") =
      .error ("invalid value: string " ++ "abc" ++ ", expected a float value inside a quoted JSON string") :=
  ⟨by decide, deserialize_f64_follows_float_grammar.2.2.2.2.2.2 "abc" (by decide)⟩

/-- C8: the build-date decoder accepts exactly the fixed compact pattern
yyyymmdd-hh:mm:ss with no UTC offset: the concrete string decodes to
year 2019, month 11, day 2, 16:19:51, and every string of any other shape
fails with a format-mismatch error naming the expected pattern. -/
theorem build_date_fixed_pattern :
    deserialize_build_info_date (.str "20191102-16:19:51") = .ok ⟨2019, 11, 2, 16, 19, 51⟩ ∧
    (∀ s, parseBuildDate s = none →
      deserialize_build_info_date (.str s) =
        .error ("invalid value: string " ++ s ++ ", expected a datetime string in format <yyyymmdd-hh:mm:ss>")) := by
  refine ⟨by decide, ?_⟩
  intro s hs
  simp [deserialize_build_info_date, hs]

/-- Witness for C8 at an offset-style date string outside the pattern. -/
theorem build_date_fixed_pattern_witness :
    parseBuildDate "2019-11-02T16:19:51" = none ∧
    deserialize_build_info_date (.str "2019-11-02T16:19:51") =
      .error ("invalid value: string " ++ "2019-11-02T16:19:51" ++ ", expected a datetime string in format <yyyymmdd-hh:mm:ss>") :=
  ⟨by decide, build_date_fixed_pattern.2 "2019-11-02T16:19:51" (by decide)⟩

theorem except_bind_ok {ε α β : Type} (a : α) (f : α → Except ε β) :
    (Except.ok a : Except ε α) >>= f = f a := rfl

theorem except_bind_error {ε α β : Type} (e : ε) (f : α → Except ε β) :
    (Except.error e : Except ε α) >>= f = Except.error e := rfl

theorem except_pure {ε α : Type} (a : α) : (pure a : Except ε α) = Except.ok a := rfl

theorem except_map_ok {ε α β : Type} (f : α → β) (a : α) :
    Except.map f (Except.ok a : Except ε α) = Except.ok (f a) := rfl

theorem except_map_error {ε α β : Type} (f : α → β) (e : ε) :
    Except.map f (Except.error e : Except ε α) = Except.error e := rfl

theorem deserialize_f64_zero_string : deserialize_f64 (.str "0.0") = .ok (.finite 0) := by
  have h : f64Tok "0.0" = some (.finite false 0 0 1 0) := by decide
  simp [deserialize_f64, f64FromStr, h, FloatTok.val]

/-- C9: the emptiness check on decoded result data returns true exactly
when the value is a vector or matrix variant with an empty series list; a
scalar variant is never reported empty, regardless of its sample. -/
theorem data_is_empty_iff_empty_series :
    ∀ d : Data, Data.is_empty d = true ↔ (d = Data.vector [] ∨ d = Data.matrix []) := by
  intro d
  cases d <;> simp [Data.is_empty]

/-- C4 counterexample: the claim extends the scalar dispatch to the
query-execution shell, but parse_response has no scalar branch: on the
concrete success document with resultType scalar it returns the
unsupported-result-type error instead of decoding a scalar sample. -/
theorem shell_has_no_scalar_branch :
    parse_response
      [("status", .str "success"),
       ("data", .obj [("resultType", .str "scalar"), ("result", .arr [.num 0, .str "0.0"])])] =
      .err (.unsupportedResponseDataType "scalar") := by decide

/-- C4 amended: a success document with resultType scalar and result
[0, "0.0"] decodes through the typed envelope to the scalar sample with
timestamp 0.0 and value 0.0; the query-execution shell, however, supports
only the vector and matrix result types and returns the
unsupported-result-type error naming scalar for the same document. -/
theorem scalar_dispatch_typed_envelope_only :
    decodeApiResponse decodePromqlResult
      (.obj [("status", .str "success"),
             ("data", .obj [("resultType", .str "scalar"), ("result", .arr [.num 0, .str "0.0"])])]) =
      .ok (.success ⟨Data.scalar ⟨0, .finite 0⟩, none⟩) ∧
    parse_response
      [("status", .str "success"),
       ("data", .obj [("resultType", .str "scalar"), ("result", .arr [.num 0, .str "0.0"])])] =
      .err (.unsupportedResponseDataType "scalar") := by
  constructor
  · simp [decodeApiResponse, decodePromqlResult, decodeData, decodeSample, decodeF64Num,
      getField, deserialize_f64_zero_string, except_bind_ok, except_bind_error, except_pure,
      except_map_ok, except_map_error]
  · decide

/-- C5 counterexample: the claim says no input document causes a panic,
but parse_response panics on the empty document (indexing the response map
by the missing status key) and on a document whose status is not a string
(the as_str unwrap). -/
theorem shell_panics_on_malformed_status :
    parse_response [] = .panicked ∧
    parse_response [("status", .num 1)] = .panicked := by decide

/-- C5 amended: the typed decoding core is total, returning for every
input document either a fully-typed success value or exactly one error,
and never panics; the query-execution shell, however, panics on documents
missing the fields its unchecked unwraps expect (such as the empty
document), while returning a classified error on well-shaped ones (here an
unknown status). -/
theorem typed_decode_total_but_shell_panics :
    (∀ j : Json, (∃ v, decodeApiResponse decodePromqlResult j = .ok v) ∨
      (∃ e, decodeApiResponse decodePromqlResult j = .error e)) ∧
    parse_response [] = .panicked ∧
    parse_response [("status", .str "bogus")] = .err (.unknownResponseStatus "bogus") := by
  refine ⟨fun j => ?_, by decide, by decide⟩
  cases hj : decodeApiResponse decodePromqlResult j with
  | ok v => exact Or.inl ⟨v, rfl⟩
  | error e => exact Or.inr ⟨e, rfl⟩

/-- C3 counterexample: the claim says any status value other than success
or error makes the decode fail, but serde alias adds the wire spelling
next to the variant name instead of replacing it, so the capitalized
variant name Success is also an accepted status tag and a document tagged
with it decodes successfully. -/
theorem envelope_accepts_capitalized_status :
    decodeApiResponse decodePromqlResult
      (.obj [("status", .str "Success"),
             ("data", .obj [("resultType", .str "vector"), ("result", .arr [])])]) =
      .ok (.success ⟨Data.vector [], none⟩) := by decide

/-- C3 amended: a document tagged success decodes successfully only when a
data field of the expected type is present (missing data fails, also in
the mixed shape carrying only errorType and error); a document tagged
error decodes to a protocol error only when errorType and error string
fields are present; and any other status tag fails, except that next to
the wire spellings success and error the capitalized variant names Success
and Error are also accepted, since serde alias adds a name rather than
replacing it. -/
theorem envelope_status_dispatch :
    decodeApiResponse decodePromqlResult
      (.obj [("status", .str "success"),
             ("data", .obj [("resultType", .str "vector"), ("result", .arr [])])]) =
      .ok (.success ⟨Data.vector [], none⟩) ∧
    (∀ (D : Type) (dec : Json → Except String D) (fields : List (String × Json)),
      getField fields "status" = some (.str "success") →
      getField fields "data" = none →
      decodeApiResponse dec (.obj fields) = .error "missing field data") ∧
    decodeApiResponse decodePromqlResult
      (.obj [("status", .str "error"), ("errorType", .str "bad_data"),
             ("error", .str "parse error")]) =
      .ok (.error ⟨"bad_data", "parse error"⟩) ∧
    (∀ fields : List (String × Json),
      getField fields "status" = some (.str "error") →
      getField fields "errorType" = none →
      decodeApiResponse decodePromqlResult (.obj fields) = .error "missing field errorType") ∧
    (∀ (fields : List (String × Json)) (k : String),
      getField fields "status" = some (.str "error") →
      getField fields "errorType" = some (.str k) →
      getField fields "error" = none →
      decodeApiResponse decodePromqlResult (.obj fields) = .error "missing field error") ∧
    (∀ (fields : List (String × Json)) (s : String),
      getField fields "status" = some (.str s) →
      s ≠ "Success" → s ≠ "success" → s ≠ "Error" → s ≠ "error" →
      decodeApiResponse decodePromqlResult (.obj fields) = .error ("unknown variant " ++ s)) ∧
    decodeApiResponse decodePromqlResult
      (.obj [("status", .str "success"), ("errorType", .str "bad_data"),
             ("error", .str "parse error")]) =
      .error "missing field data" := by
  refine ⟨by decide, ?_, by decide, ?_, ?_, ?_, by decide⟩
  · intro D dec fields hst hdata
    simp [decodeApiResponse, hst, hdata, except_bind_ok, except_pure]
  · intro fields hst het
    simp [decodeApiResponse, decodePrometheusError, hst, het, except_bind_ok, except_pure,
      except_bind_error, except_map_error]
  · intro fields kd hst het herr
    simp [decodeApiResponse, decodePrometheusError, hst, het, herr, except_bind_ok, except_pure,
      except_bind_error, except_map_error]
  · intro fields s hst h1 h2 h3 h4
    simp [decodeApiResponse, hst, h1, h2, h3, h4, except_bind_ok, except_pure]

/-- Witness for C3 at the unknown status tag working. -/
theorem envelope_status_dispatch_witness :
    decodeApiResponse decodePromqlResult (.obj [("status", .str "working")]) =
      .error ("unknown variant " ++ "working") :=
  envelope_status_dispatch.2.2.2.2.2.1 [("status", .str "working")] "working"
    rfl (by decide) (by decide) (by decide) (by decide)

theorem getField_append_ne (fields : List (String × Json)) (k k2 : String) (v : Json)
    (h : k2 ≠ k) : getField (fields ++ [(k, v)]) k2 = getField fields k2 := by
  induction fields with
  | nil => simp [getField, Ne.symm h]
  | cons p rest ih =>
    cases p with
    | mk k3 v3 =>
      by_cases hk : k3 = k2
      · simp [getField, hk]
      · simp [getField, hk, ih]

theorem getFieldIn_append_notin (fields : List (String × Json)) (ks : List String)
    (k : String) (v : Json) (h : k ∉ ks) :
    getFieldIn (fields ++ [(k, v)]) ks = getFieldIn fields ks := by
  induction fields with
  | nil => simp [getFieldIn, h]
  | cons p rest ih =>
    cases p with
    | mk k3 v3 =>
      by_cases hk : k3 ∈ ks
      · simp [getFieldIn, hk]
      · simp [getFieldIn, hk, ih]

theorem decodePrometheusError_ignores (fields : List (String × Json)) (k : String) (v : Json)
    (h : k ∉ ["errorType", "error"]) :
    decodePrometheusError (.obj (fields ++ [(k, v)])) = decodePrometheusError (.obj fields) := by
  simp [not_or] at h
  obtain ⟨h1, h2⟩ := h
  simp [decodePrometheusError, getField_append_ne fields k "errorType" v (Ne.symm h1),
    getField_append_ne fields k "error" v (Ne.symm h2)]

theorem decodeApiResponse_ignores (D : Type) (dec : Json → Except String D)
    (fields : List (String × Json)) (k : String) (v : Json)
    (h : k ∉ ["status", "data", "errorType", "error"]) :
    decodeApiResponse dec (.obj (fields ++ [(k, v)])) = decodeApiResponse dec (.obj fields) := by
  have hpe : decodePrometheusError (.obj (fields ++ [(k, v)])) = decodePrometheusError (.obj fields) := by
    apply decodePrometheusError_ignores
    simp [not_or] at h ⊢
    exact ⟨h.2.2.1, h.2.2.2⟩
  simp [not_or] at h
  obtain ⟨h1, h2, -, -⟩ := h
  simp [decodeApiResponse, getField_append_ne fields k "status" v (Ne.symm h1),
    getField_append_ne fields k "data" v (Ne.symm h2), hpe]

theorem decodeData_ignores (fields : List (String × Json)) (k : String) (v : Json)
    (h : k ∉ ["resultType", "result"]) :
    decodeData (.obj (fields ++ [(k, v)])) = decodeData (.obj fields) := by
  simp [not_or] at h
  obtain ⟨h1, h2⟩ := h
  simp [decodeData, getField_append_ne fields k "resultType" v (Ne.symm h1),
    getField_append_ne fields k "result" v (Ne.symm h2)]

theorem decodePromqlResult_ignores (fields : List (String × Json)) (k : String) (v : Json)
    (h : k ∉ ["stats", "resultType", "result"]) :
    decodePromqlResult (.obj (fields ++ [(k, v)])) = decodePromqlResult (.obj fields) := by
  have hd : decodeData (.obj (fields ++ [(k, v)])) = decodeData (.obj fields) := by
    apply decodeData_ignores
    simp [not_or] at h ⊢
    exact ⟨h.2.1, h.2.2⟩
  simp [not_or] at h
  simp [decodePromqlResult, getField_append_ne fields k "stats" v (Ne.symm h.1), hd]

theorem decodeInstantVector_ignores (fields : List (String × Json)) (k : String) (v : Json)
    (h : k ∉ ["metric", "sample", "value"]) :
    decodeInstantVector (.obj (fields ++ [(k, v)])) = decodeInstantVector (.obj fields) := by
  simp [not_or] at h
  obtain ⟨h1, h2, h3⟩ := h
  simp [decodeInstantVector, getField_append_ne fields k "metric" v (Ne.symm h1),
    getFieldIn_append_notin fields ["sample", "value"] k v (by simp [not_or]; exact ⟨h2, h3⟩)]

theorem decodeRangeVector_ignores (fields : List (String × Json)) (k : String) (v : Json)
    (h : k ∉ ["metric", "samples", "values"]) :
    decodeRangeVector (.obj (fields ++ [(k, v)])) = decodeRangeVector (.obj fields) := by
  simp [not_or] at h
  obtain ⟨h1, h2, h3⟩ := h
  simp [decodeRangeVector, getField_append_ne fields k "metric" v (Ne.symm h1),
    getFieldIn_append_notin fields ["samples", "values"] k v (by simp [not_or]; exact ⟨h2, h3⟩)]

theorem decodeTimings_ignores (fields : List (String × Json)) (k : String) (v : Json)
    (h : k ∉ ["eval_total_time", "evalTotalTime", "result_sort_time", "resultSortTime",
      "query_preparation_time", "queryPreparationTime", "inner_eval_time", "innerEvalTime",
      "exec_queue_time", "execQueueTime", "exec_total_time", "execTotalTime"]) :
    decodeTimings (.obj (fields ++ [(k, v)])) = decodeTimings (.obj fields) := by
  simp [not_or] at h
  obtain ⟨h1, h2, h3, h4, h5, h6, h7, h8, h9, h10, h11, h12⟩ := h
  simp [decodeTimings, reqF64,
    getFieldIn_append_notin fields ["eval_total_time", "evalTotalTime"] k v
      (by simp [not_or]; exact ⟨h1, h2⟩),
    getFieldIn_append_notin fields ["result_sort_time", "resultSortTime"] k v
      (by simp [not_or]; exact ⟨h3, h4⟩),
    getFieldIn_append_notin fields ["query_preparation_time", "queryPreparationTime"] k v
      (by simp [not_or]; exact ⟨h5, h6⟩),
    getFieldIn_append_notin fields ["inner_eval_time", "innerEvalTime"] k v
      (by simp [not_or]; exact ⟨h7, h8⟩),
    getFieldIn_append_notin fields ["exec_queue_time", "execQueueTime"] k v
      (by simp [not_or]; exact ⟨h9, h10⟩),
    getFieldIn_append_notin fields ["exec_total_time", "execTotalTime"] k v
      (by simp [not_or]; exact ⟨h11, h12⟩)]

theorem decodeSamples_ignores (fields : List (String × Json)) (k : String) (v : Json)
    (h : k ∉ ["total_queryable_samples_per_step", "totalQueryableSamplesPerStep",
      "total_queryable_samples", "totalQueryableSamples", "peak_samples", "peakSamples"]) :
    decodeSamples (.obj (fields ++ [(k, v)])) = decodeSamples (.obj fields) := by
  simp [not_or] at h
  obtain ⟨h1, h2, h3, h4, h5, h6⟩ := h
  simp [decodeSamples,
    getFieldIn_append_notin fields
      ["total_queryable_samples_per_step", "totalQueryableSamplesPerStep"] k v
      (by simp [not_or]; exact ⟨h1, h2⟩),
    getFieldIn_append_notin fields ["total_queryable_samples", "totalQueryableSamples"] k v
      (by simp [not_or]; exact ⟨h3, h4⟩),
    getFieldIn_append_notin fields ["peak_samples", "peakSamples"] k v
      (by simp [not_or]; exact ⟨h5, h6⟩)]

theorem decodeStats_ignores (fields : List (String × Json)) (k : String) (v : Json)
    (h : k ∉ ["timings", "samples"]) :
    decodeStats (.obj (fields ++ [(k, v)])) = decodeStats (.obj fields) := by
  simp [not_or] at h
  obtain ⟨h1, h2⟩ := h
  simp [decodeStats, getField_append_ne fields k "timings" v (Ne.symm h1),
    getField_append_ne fields k "samples" v (Ne.symm h2)]

theorem decodeBuildInformation_ignores (fields : List (String × Json)) (k : String) (v : Json)
    (h : k ∉ ["version", "revision", "branch", "build_user", "buildUser",
      "build_date", "buildDate", "go_version", "goVersion"]) :
    decodeBuildInformation (.obj (fields ++ [(k, v)])) = decodeBuildInformation (.obj fields) := by
  simp [not_or] at h
  obtain ⟨h1, h2, h3, h4, h5, h6, h7, h8, h9⟩ := h
  simp [decodeBuildInformation, reqString,
    getFieldIn_append_notin fields ["version"] k v (by simp; exact h1),
    getFieldIn_append_notin fields ["revision"] k v (by simp; exact h2),
    getFieldIn_append_notin fields ["branch"] k v (by simp; exact h3),
    getFieldIn_append_notin fields ["build_user", "buildUser"] k v
      (by simp [not_or]; exact ⟨h4, h5⟩),
    getFieldIn_append_notin fields ["build_date", "buildDate"] k v
      (by simp [not_or]; exact ⟨h6, h7⟩),
    getFieldIn_append_notin fields ["go_version", "goVersion"] k v
      (by simp [not_or]; exact ⟨h8, h9⟩)]

theorem decodeTargetMetadata_ignores (fields : List (String × Json)) (k : String) (v : Json)
    (h : k ∉ ["target", "metric_type", "type", "metric", "help", "unit"]) :
    decodeTargetMetadata (.obj (fields ++ [(k, v)])) = decodeTargetMetadata (.obj fields) := by
  simp [not_or] at h
  obtain ⟨h1, h2, h3, h4, h5, h6⟩ := h
  simp [decodeTargetMetadata, reqString,
    getField_append_ne fields k "target" v (Ne.symm h1),
    getFieldIn_append_notin fields ["metric_type", "type"] k v
      (by simp [not_or]; exact ⟨h2, h3⟩),
    getField_append_ne fields k "metric" v (Ne.symm h4),
    getFieldIn_append_notin fields ["help"] k v (by simp; exact h5),
    getFieldIn_append_notin fields ["unit"] k v (by simp; exact h6)]

theorem decodeTsdbItemCount_ignores (fields : List (String × Json)) (k : String) (v : Json)
    (h : k ∉ ["name", "value"]) :
    decodeTsdbItemCount (.obj (fields ++ [(k, v)])) = decodeTsdbItemCount (.obj fields) := by
  simp [not_or] at h
  obtain ⟨h1, h2⟩ := h
  simp [decodeTsdbItemCount, reqString,
    getFieldIn_append_notin fields ["name"] k v (by simp; exact h1),
    getField_append_ne fields k "value" v (Ne.symm h2)]

theorem decodeWalReplayStatistics_ignores (fields : List (String × Json)) (k : String) (v : Json)
    (h : k ∉ ["min", "max", "current", "state"]) :
    decodeWalReplayStatistics (.obj (fields ++ [(k, v)])) =
      decodeWalReplayStatistics (.obj fields) := by
  simp [not_or] at h
  obtain ⟨h1, h2, h3, h4⟩ := h
  simp [decodeWalReplayStatistics,
    getField_append_ne fields k "min" v (Ne.symm h1),
    getField_append_ne fields k "max" v (Ne.symm h2),
    getField_append_ne fields k "current" v (Ne.symm h3),
    getField_append_ne fields k "state" v (Ne.symm h4)]

/-- C10: every decoder of the embedded response model ignores unrecognized
JSON keys: appending a field under a key outside the decoder's recognized
names (field names and their wire aliases) to an object leaves the decode
outcome unchanged, for the envelope (under any data decoder), the query
result and its parts, the protocol error, and the domain entity decoders
embedded here. -/
theorem decoders_ignore_unknown_keys :
    (∀ (D : Type) (dec : Json → Except String D) (fields : List (String × Json)) (k : String) (v : Json),
      k ∉ ["status", "data", "errorType", "error"] →
      decodeApiResponse dec (.obj (fields ++ [(k, v)])) = decodeApiResponse dec (.obj fields)) ∧
    (∀ (fields : List (String × Json)) (k : String) (v : Json),
      k ∉ ["stats", "resultType", "result"] →
      decodePromqlResult (.obj (fields ++ [(k, v)])) = decodePromqlResult (.obj fields)) ∧
    (∀ (fields : List (String × Json)) (k : String) (v : Json),
      k ∉ ["resultType", "result"] →
      decodeData (.obj (fields ++ [(k, v)])) = decodeData (.obj fields)) ∧
    (∀ (fields : List (String × Json)) (k : String) (v : Json),
      k ∉ ["metric", "sample", "value"] →
      decodeInstantVector (.obj (fields ++ [(k, v)])) = decodeInstantVector (.obj fields)) ∧
    (∀ (fields : List (String × Json)) (k : String) (v : Json),
      k ∉ ["metric", "samples", "values"] →
      decodeRangeVector (.obj (fields ++ [(k, v)])) = decodeRangeVector (.obj fields)) ∧
    (∀ (fields : List (String × Json)) (k : String) (v : Json),
      k ∉ ["errorType", "error"] →
      decodePrometheusError (.obj (fields ++ [(k, v)])) = decodePrometheusError (.obj fields)) ∧
    (∀ (fields : List (String × Json)) (k : String) (v : Json),
      k ∉ ["timings", "samples"] →
      decodeStats (.obj (fields ++ [(k, v)])) = decodeStats (.obj fields)) ∧
    (∀ (fields : List (String × Json)) (k : String) (v : Json),
      k ∉ ["eval_total_time", "evalTotalTime", "result_sort_time", "resultSortTime",
        "query_preparation_time", "queryPreparationTime", "inner_eval_time", "innerEvalTime",
        "exec_queue_time", "execQueueTime", "exec_total_time", "execTotalTime"] →
      decodeTimings (.obj (fields ++ [(k, v)])) = decodeTimings (.obj fields)) ∧
    (∀ (fields : List (String × Json)) (k : String) (v : Json),
      k ∉ ["total_queryable_samples_per_step", "totalQueryableSamplesPerStep",
        "total_queryable_samples", "totalQueryableSamples", "peak_samples", "peakSamples"] →
      decodeSamples (.obj (fields ++ [(k, v)])) = decodeSamples (.obj fields)) ∧
    (∀ (fields : List (String × Json)) (k : String) (v : Json),
      k ∉ ["version", "revision", "branch", "build_user", "buildUser",
        "build_date", "buildDate", "go_version", "goVersion"] →
      decodeBuildInformation (.obj (fields ++ [(k, v)])) = decodeBuildInformation (.obj fields)) ∧
    (∀ (fields : List (String × Json)) (k : String) (v : Json),
      k ∉ ["target", "metric_type", "type", "metric", "help", "unit"] →
      decodeTargetMetadata (.obj (fields ++ [(k, v)])) = decodeTargetMetadata (.obj fields)) ∧
    (∀ (fields : List (String × Json)) (k : String) (v : Json),
      k ∉ ["name", "value"] →
      decodeTsdbItemCount (.obj (fields ++ [(k, v)])) = decodeTsdbItemCount (.obj fields)) ∧
    (∀ (fields : List (String × Json)) (k : String) (v : Json),
      k ∉ ["min", "max", "current", "state"] →
      decodeWalReplayStatistics (.obj (fields ++ [(k, v)])) =
        decodeWalReplayStatistics (.obj fields)) :=
  ⟨decodeApiResponse_ignores,
   decodePromqlResult_ignores,
   decodeData_ignores,
   decodeInstantVector_ignores,
   decodeRangeVector_ignores,
   decodePrometheusError_ignores,
   decodeStats_ignores,
   decodeTimings_ignores,
   decodeSamples_ignores,
   decodeBuildInformation_ignores,
   decodeTargetMetadata_ignores,
   decodeTsdbItemCount_ignores,
   decodeWalReplayStatistics_ignores⟩

/-- Witness for C10: adding a warnings field to a well-formed envelope
does not change the decode outcome. -/
theorem decoders_ignore_unknown_keys_witness :
    decodeApiResponse decodePromqlResult
      (.obj ([("status", .str "success"),
              ("data", .obj [("resultType", .str "vector"), ("result", .arr [])])] ++
             [("warnings", .arr [])])) =
      decodeApiResponse decodePromqlResult
        (.obj [("status", .str "success"),
               ("data", .obj [("resultType", .str "vector"), ("result", .arr [])])]) :=
  decoders_ignore_unknown_keys.1 PromqlResult decodePromqlResult
    [("status", .str "success"),
     ("data", .obj [("resultType", .str "vector"), ("result", .arr [])])]
    "warnings" (.arr []) (by decide)

end PromHttp
